import Mathlib

/-!
Shallow embedding of the coordinate-transformation and debug-overlay
subsystem of the laser-tool Inkscape extension (src/laser/laser.py,
class GcodeExtension).  Geometry is modelled over ℚ; the SVG document
tree is modelled as a small XML tree; the external svg_to_gcode
collaborators (curve parsing, line-segment approximation, gcode
compilation) are abstracted as parameters, faithful to the spec's
"external collaborator" boundary.
-/

namespace LaserTool

/-- Attribute values stored on an XML element: either a plain string or a
numeric value.  Python renders numbers to strings via str(); the rendering
is abstracted here by keeping the number itself (an injective encoding). -/
inductive AVal where
  | str (s : String)
  | num (q : ℚ)
  | pts (l : List (ℚ × ℚ))
deriving DecidableEq, Repr

/-- An XML element: tag, attributes, optional text content, children.
Namespace prefixes of the Python source are elided (tags are plain
"g", "line", "text", "path", "defs"). -/
inductive XElem where
  | mk (tag : String) (attrs : List (String × AVal)) (text : Option String)
      (children : List XElem)

def XElem.tag : XElem → String
  | .mk t _ _ _ => t

def XElem.attrs : XElem → List (String × AVal)
  | .mk _ a _ _ => a

def XElem.text : XElem → Option String
  | .mk _ _ tx _ => tx

def XElem.children : XElem → List XElem
  | .mk _ _ _ cs => cs

def XElem.withChildren : XElem → List XElem → XElem
  | .mk t a tx _, cs => .mk t a tx cs

/-- element.get(key): first attribute with the given key, if any. -/
def XElem.getAttr (e : XElem) (k : String) : Option AVal :=
  (e.attrs.find? (fun p => p.1 == k)).map Prod.snd

/-- root.append(child): append a child element. -/
def appendChild (root : XElem) (child : XElem) : XElem :=
  root.withChildren (root.children ++ [child])

/-- An affine operation, as built by svg_to_gcode's
Transformation.add_translation / Transformation.add_scale. -/
inductive AffineOp where
  | translate (dx dy : ℚ)
  | scale (sx sy : ℚ)
deriving DecidableEq, Repr

/-- Apply one affine operation to a point. -/
def applyOp : AffineOp → ℚ × ℚ → ℚ × ℚ
  | .translate dx dy, (x, y) => (x + dx, y + dy)
  | .scale sx sy, (x, y) => (sx * x, sy * y)

/-- Apply an ordered chain of affine operations left-to-right (oldest
first), the TransformChain semantics of the spec. -/
def applyChain (ops : List AffineOp) (p : ℚ × ℚ) : ℚ × ℚ :=
  ops.foldl (fun q op => applyOp op q) p

/-- Numeric value of a list of decimal digit characters. -/
def digitsVal (cs : List Char) : ℕ :=
  cs.foldl (fun a c => 10 * a + (c.toNat - 48)) 0

/-- Model of Python str.isnumeric() restricted to ASCII: true iff the
string is nonempty and every character is a decimal digit. -/
def isPyNumeric (s : String) : Bool :=
  !s.toList.isEmpty && s.toList.all Char.isDigit

/-- Model of Python float(s) on plain decimal literals: an optional sign,
then digits with at most one decimal point and at least one digit.
Returns none where Python raises ValueError. -/
def pyFloat (s : String) : Option ℚ :=
  let cs := s.toList
  let sign : ℚ := if cs.head? = some '-' then -1 else 1
  let rest : List Char :=
    if cs.head? = some '-' ∨ cs.head? = some '+' then cs.tail else cs
  if rest.all (fun c => c.isDigit || c == '.') && rest.count '.' ≤ 1 &&
      rest.any Char.isDigit then
    let intPart := rest.takeWhile (fun c => c ≠ '.')
    let fracPart := (rest.dropWhile (fun c => c ≠ '.')).drop 1
    some (sign * ((digitsVal intPart : ℚ) +
      (digitsVal fracPart : ℚ) / (10 ^ fracPart.length)))
  else none

/-- laser.py line 129:
canvas_height = float(height_str) if height_str.isnumeric() else float(height_str[:-2]).
A missing height attribute (None) is an error, as in Python. -/
def canvasHeightOf (heightAttr : Option String) : Option ℚ :=
  match heightAttr with
  | none => none
  | some s => if isPyNumeric s then pyFloat s else pyFloat (s.dropRight 2)

/-- The string value of an attribute, when present and a string. -/
def getStrAttr (e : XElem) (k : String) : Option String :=
  match e.getAttr k with
  | some (.str s) => some s
  | _ => none

/-- Configuration options read from self.options (the subset the
transform/overlay subsystem consumes). -/
structure Options where
  machine_origin : String
  unit : String
  bed_width : ℚ
  bed_height : ℚ
  horizontal_offset : ℚ
  vertical_offset : ℚ
  scaling_factor : ℚ
  draw_debug : Bool

/-- laser.py lines 96-102: the forward (document→machine) transformation
built in effect(): translation by the offsets, then a uniform scale, then,
for origin "center" only, a translation by (-bed_width/2, bed_height/2). -/
def forwardChain (origin : String) (hOff vOff s w h : ℚ) : List AffineOp :=
  [.translate hOff vOff, .scale s s] ++
    (if origin == "center" then [.translate (-w / 2) (h / 2)] else [])

/-- laser.py lines 104-106: transform_origin = True; if origin ==
"top-left": transform_origin = False. -/
def transformOriginFlag (origin : String) : Bool :=
  origin != "top-left"

/-- A parsed curve: an ordered finite sequence of points (produced by the
external curve parser; opaque data to this subsystem). -/
def Curve := List (ℚ × ℚ)

/-- laser.py lines 141-148: the per-curve overlay transformation built in
draw_debug_traces: empty for "top-left"; otherwise Scale(1,-1) then
Translate(0, -canvas_height); for "center" additionally
Translate(bed_width/2, bed_height/2). -/
def changeOrigin (origin : String) (canvasHeight w h : ℚ) : List AffineOp :=
  (if origin != "top-left" then
    [.scale 1 (-1), .translate 0 (-canvasHeight)] else []) ++
  (if origin == "center" then [.translate (w / 2) (h / 2)] else [])

/-- External debug_methods.arrow_defs(): an SVG defs element whose inner
markup is irrelevant to this subsystem (not a path element). -/
def arrowDefs : XElem := .mk "defs" [] none []

/-- External debug_methods.to_svg_path: renders an approximated curve as a
path element, mapping every vertex through the given transformation; red
stroke, width 0.5, arrows. The vertex list is kept as a structured
attribute. -/
def toSvgPath (transformation : List AffineOp) (approximation : List (ℚ × ℚ)) :
    XElem :=
  .mk "path"
    [("stroke", .str "red"), ("stroke-width", .num (1 / 2)),
     ("d", .pts (approximation.map (applyChain transformation)))]
    none []

/-- The debug_traces layer group built by draw_debug_traces: arrow defs
plus one path per curve, each mapped through changeOrigin (laser.py
lines 131-153).  The external
LineSegmentChain.line_segment_approximation is the parameter approx. -/
def tracesGroup (approx : Curve → List (ℚ × ℚ)) (origin : String)
    (canvas_height w h : ℚ) (curves : List Curve) : XElem :=
  .mk "g"
    [("id", .str "debug_traces"), ("groupmode", .str "layer"),
     ("label", .str "debug laser traces")]
    none
    (arrowDefs ::
      curves.map (fun curve =>
        toSvgPath (changeOrigin origin canvas_height w h) (approx curve)))

/-- laser.py lines 120-155, draw_debug_traces: reads the document height,
builds the debug_traces layer group, and appends it to the root.
Returns none where Python raises. -/
def drawDebugTraces (approx : Curve → List (ℚ × ℚ)) (root : XElem)
    (origin : String) (w h : ℚ) (curves : List Curve) : Option XElem :=
  match canvasHeightOf (getStrAttr root "height") with
  | none => none
  | some canvas_height =>
    some (appendChild root (tracesGroup approx origin canvas_height w h curves))

/-- laser.py line 170: the four bed corners in document (SVG) coordinates,
in document-corner order top-left, bottom-left, top-right, bottom-right
(document space has y increasing downward). -/
def referencePointsSvg (w h : ℚ) : List (ℚ × ℚ) :=
  [(0, 0), (0, h), (w, 0), (w, h)]

/-- laser.py lines 171-176: the machine-coordinate label table, indexed by
origin mode; none models the KeyError on an unrecognized mode. -/
def referencePointsGcode (origin : String) (w h : ℚ) :
    Option (List (ℚ × ℚ)) :=
  if origin == "bottom-left" then
    some [(0, h), (0, 0), (w, h), (w, 0)]
  else if origin == "top-left" then
    some [(0, 0), (0, h), (w, 0), (w, h)]
  else if origin == "center" then
    some [(-w / 2, h / 2), (-w / 2, -h / 2), (w / 2, h / 2), (w / 2, -h / 2)]
  else none

/-- laser.py line 184: x_direction = -1 if x > 0 else 1. -/
def xDirection (x : ℚ) : ℚ := if x > 0 then -1 else 1

/-- laser.py line 194: y_direction = -1 if y > 0 else 1. -/
def yDirection (y : ℚ) : ℚ := if y > 0 then -1 else 1

/-- laser.py line 207: the text y attribute y - (y <= 0)*6 + (y > 0)*9,
with Python booleans as 0/1. -/
def textY (y : ℚ) : ℚ :=
  y - (if y ≤ 0 then 1 else 0) * 6 + (if y > 0 then 1 else 0) * 9

/-- laser.py lines 179-212: one reference-point group for corner (x, y)
with machine-coordinate label (lx, ly): a plus sign of two line elements
plus a text box.  Python str() on numbers is abstracted by AVal.num. -/
def referencePoint (unit : String) (x y lx ly : ℚ) : XElem :=
  let stroke_width : ℚ := 2
  let size : ℚ := 7
  let horizontal : XElem := .mk "line"
    [("x1", .num (x - xDirection x * stroke_width / 2)), ("y1", .num y),
     ("x2", .num (x + xDirection x * size)), ("y2", .num y),
     ("style", .str "stroke:black;stroke-width:2")] none []
  let vertical : XElem := .mk "line"
    [("x1", .num x), ("y1", .num (y + stroke_width / 2)),
     ("x2", .num x), ("y2", .num (y + yDirection y * size)),
     ("style", .str "stroke:black;stroke-width:2")] none []
  let plus_sign : XElem := .mk "g" [] none [horizontal, vertical]
  let text_box : XElem := .mk "text"
    [("x", .num (x - 28)), ("y", .num (textY y)), ("font-size", .str "6")]
    (some (toString lx ++ unit ++ ", " ++ toString ly ++ unit)) []
  .mk "g" [] none [plus_sign, text_box]

/-- The debug_references layer group built by draw_unit_reference: one
reference point per bed corner, labelled from the origin-mode table
(laser.py lines 165-212). -/
def refsGroup (unit : String) (labels : List (ℚ × ℚ)) (w h : ℚ) : XElem :=
  .mk "g"
    [("id", .str "debug_references"), ("groupmode", .str "layer"),
     ("label", .str "debug reference points")]
    none
    (((referencePointsSvg w h).zip labels).map
      (fun pl => referencePoint unit pl.1.1 pl.1.2 pl.2.1 pl.2.2))

/-- laser.py lines 157-214, draw_unit_reference: builds the
debug_references layer group and appends it to the root.  Returns none
where Python raises KeyError (unrecognized origin). -/
def drawUnitReference (root : XElem) (origin unit : String) (w h : ℚ) :
    Option XElem :=
  match referencePointsGcode origin w h with
  | none => none
  | some labels =>
    some (appendChild root (refsGroup unit labels w h))

/-- Whether an element is the overlay group with the given identifier:
root.find matches a g child whose id attribute is idv. -/
def matchesId (idv : String) (e : XElem) : Bool :=
  e.tag == "g" &&
    (match e.getAttr "id" with
     | some (.str s) => s == idv
     | _ => false)

/-- root.find followed by root.remove: drop the first child matching the
overlay identifier, keeping the rest; no-op when none matches. -/
def removeFirstById : List XElem → String → List XElem
  | [], _ => []
  | c :: rest, idv =>
    if matchesId idv c then rest else c :: removeFirstById rest idv

/-- Number of direct children that are the overlay group with the given
identifier. -/
def countById (cs : List XElem) (idv : String) : ℕ :=
  cs.countP (fun e => matchesId idv e)

/-- laser.py lines 216-227, clear_debug: remove the first debug_traces
child and the first debug_references child of the root, when present. -/
def clearDebug (root : XElem) : XElem :=
  root.withChildren
    (removeFirstById (removeFirstById root.children "debug_traces")
      "debug_references")

/-- laser.py lines 45-118, effect(), restricted to its document-side
behaviour: clear the previous overlay, build the forward chain and the
transform_origin flag, parse curves (external parse_root is the parameter
parseRoot), and, when draw_debug is set, append the trace overlay and the
reference overlay.  Gcode compilation writes a file and does not touch the
document.  Returns none where Python raises before returning the
document. -/
def effect (parseRoot : XElem → Bool → List AffineOp → List Curve)
    (approx : Curve → List (ℚ × ℚ)) (o : Options) (doc : XElem) :
    Option XElem :=
  let root := clearDebug doc
  let transformation := forwardChain o.machine_origin o.horizontal_offset
    o.vertical_offset o.scaling_factor o.bed_width o.bed_height
  let curves := parseRoot root (transformOriginFlag o.machine_origin)
    transformation
  if o.draw_debug then
    (drawDebugTraces approx root o.machine_origin o.bed_width o.bed_height
      curves).bind
      (fun r2 => drawUnitReference r2 o.machine_origin o.unit o.bed_width
        o.bed_height)
  else
    some root

/-! Concrete fixtures used to exercise the development on closed inputs:
a minimal svg document, trivial external collaborators, and option sets. -/

/-- A minimal svg document: height attribute "200", no children. -/
def docA : XElem := .mk "svg" [("height", AVal.str "200")] none []

/-- A stub overlay group carrying the trace-overlay identifier. -/
def traceStub : XElem := .mk "g" [("id", AVal.str "debug_traces")] none []

/-- A document holding two trace-overlay groups. -/
def dupDoc : XElem := .mk "svg" [] none [traceStub, traceStub]

/-- Trivial external curve parser: no curves. -/
def prEmpty : XElem → Bool → List AffineOp → List Curve := fun _ _ _ => []

/-- Trivial external line-segment approximation: a curve is its own
vertex list. -/
def apId : Curve → List (ℚ × ℚ) := fun c => c

/-- The canvas height the parser extracts from docA. -/
def chA : ℚ := (canvasHeightOf (some "200")).getD 0

/-- Options with an origin-mode value outside the recognized set and
debug drawing disabled. -/
def optsBogus : Options :=
  ⟨"upper-right", "mm", 100, 200, 0, 0, 1, false⟩

/-- Options with an unrecognized origin-mode value and debug drawing
enabled. -/
def optsBogusDebug : Options :=
  ⟨"upper-right", "mm", 100, 200, 0, 0, 1, true⟩

/-- Ordinary bottom-left options with debug drawing enabled. -/
def optsBL : Options :=
  ⟨"bottom-left", "mm", 100, 200, 0, 0, 1, true⟩

/-- The document produced by one generation pass over docA. -/
def docA1 : XElem := (effect prEmpty apId optsBL docA).getD docA

/-- The document produced by a second generation pass over docA1. -/
def docA2 : XElem := (effect prEmpty apId optsBL docA1).getD docA

/-! Structural lemmas about the document model. -/

theorem XElem.withChildren_self (e : XElem) :
    e.withChildren e.children = e := by
  cases e
  rfl

theorem XElem.children_withChildren (e : XElem) (cs : List XElem) :
    (e.withChildren cs).children = cs := by
  cases e
  rfl

theorem XElem.tag_withChildren (e : XElem) (cs : List XElem) :
    (e.withChildren cs).tag = e.tag := by
  cases e
  rfl

theorem XElem.attrs_withChildren (e : XElem) (cs : List XElem) :
    (e.withChildren cs).attrs = e.attrs := by
  cases e
  rfl

theorem XElem.withChildren_withChildren (e : XElem) (cs ds : List XElem) :
    (e.withChildren cs).withChildren ds = e.withChildren ds := by
  cases e
  rfl

/-! Helper lemmas about overlay removal and counting. -/

theorem removeFirstById_of_countZero (cs : List XElem) (i : String)
    (h : countById cs i = 0) : removeFirstById cs i = cs := by
  induction cs with
  | nil => rfl
  | cons c rest ih =>
    simp only [countById, List.countP_cons] at h ih ⊢
    by_cases hc : matchesId i c = true
    · simp [hc] at h
    · rw [removeFirstById, if_neg hc, ih]
      rw [if_neg hc] at h
      omega

theorem countById_removeFirstById_self (cs : List XElem) (i : String)
    (h : countById cs i ≤ 1) : countById (removeFirstById cs i) i = 0 := by
  induction cs with
  | nil => rfl
  | cons c rest ih =>
    simp only [countById, List.countP_cons] at h ih ⊢
    by_cases hc : matchesId i c = true
    · rw [removeFirstById, if_pos hc]
      rw [if_pos hc] at h
      omega
    · rw [removeFirstById, if_neg hc]
      rw [if_neg hc] at h
      rw [List.countP_cons, if_neg hc, ih (by omega)]

theorem removeFirstById_sublist (cs : List XElem) (i : String) :
    List.Sublist (removeFirstById cs i) cs := by
  induction cs with
  | nil => exact List.Sublist.refl []
  | cons c rest ih =>
    rw [removeFirstById]
    by_cases hc : matchesId i c = true
    · rw [if_pos hc]
      exact List.sublist_cons_self c rest
    · rw [if_neg hc]
      exact List.Sublist.cons₂ c ih

theorem countById_removeFirstById_le (cs : List XElem) (i j : String) :
    countById (removeFirstById cs j) i ≤ countById cs i :=
  (removeFirstById_sublist cs j).countP_le _

theorem removeFirstById_append_of_countZero (cs ds : List XElem) (i : String)
    (h : countById cs i = 0) :
    removeFirstById (cs ++ ds) i = cs ++ removeFirstById ds i := by
  induction cs with
  | nil => rfl
  | cons c rest ih =>
    simp only [countById, List.countP_cons] at h ih
    by_cases hc : matchesId i c = true
    · simp [hc] at h
    · simp only [List.cons_append]
      rw [removeFirstById, if_neg hc, ih]
      rw [if_neg hc] at h
      omega

theorem countById_append (cs ds : List XElem) (i : String) :
    countById (cs ++ ds) i = countById cs i + countById ds i :=
  List.countP_append _ cs ds

/-- Clearing leaves no overlay group of either kind when the document held
at most one of each. -/
theorem countById_clearDebug (d : XElem)
    (h1 : countById d.children "debug_traces" ≤ 1)
    (h2 : countById d.children "debug_references" ≤ 1) :
    countById (clearDebug d).children "debug_traces" = 0 ∧
    countById (clearDebug d).children "debug_references" = 0 := by
  rw [clearDebug, XElem.children_withChildren]
  constructor
  · have h0 : countById (removeFirstById d.children "debug_traces")
        "debug_traces" = 0 := countById_removeFirstById_self _ _ h1
    have := countById_removeFirstById_le
      (removeFirstById d.children "debug_traces") "debug_traces"
      "debug_references"
    omega
  · have hle : countById (removeFirstById d.children "debug_traces")
        "debug_references" ≤ 1 :=
      le_trans (countById_removeFirstById_le _ _ _) h2
    exact countById_removeFirstById_self _ _ hle

theorem clearDebug_of_countZero (d : XElem)
    (h1 : countById d.children "debug_traces" = 0)
    (h2 : countById d.children "debug_references" = 0) :
    clearDebug d = d := by
  rw [clearDebug, removeFirstById_of_countZero _ _ h1,
    removeFirstById_of_countZero _ _ h2, XElem.withChildren_self]

theorem matchesId_cons_self (i : String) (rest : List (String × AVal))
    (tx : Option String) (cs : List XElem) :
    matchesId i (XElem.mk "g" (("id", AVal.str i) :: rest) tx cs) = true := by
  simp [matchesId, XElem.getAttr, XElem.tag, XElem.attrs, List.find?]

theorem matchesId_cons_ne (i j : String) (hne : i ≠ j)
    (rest : List (String × AVal)) (tx : Option String) (cs : List XElem) :
    matchesId i (XElem.mk "g" (("id", AVal.str j) :: rest) tx cs) = false := by
  simp [matchesId, XElem.getAttr, XElem.tag, XElem.attrs, List.find?]
  exact fun hj => absurd hj.symm hne

/-! Helper lemmas about the height-string parsing model. -/

theorem all_digit_facts (cs : List Char) (h : cs.all Char.isDigit = true) :
    cs.takeWhile (fun c => c ≠ '.') = cs ∧
    cs.dropWhile (fun c => c ≠ '.') = [] ∧
    cs.count '.' = 0 := by
  induction cs with
  | nil => exact ⟨rfl, rfl, rfl⟩
  | cons c t ih =>
    simp only [List.all_cons, Bool.and_eq_true] at h
    obtain ⟨hc, ht⟩ := h
    have hcd : c ≠ '.' := by
      intro hEq
      rw [hEq] at hc
      exact absurd hc (by decide)
    obtain ⟨h1, h2, h3⟩ := ih ht
    refine ⟨?_, ?_, ?_⟩
    · rw [List.takeWhile_cons, if_pos (decide_eq_true hcd), h1]
    · rw [List.dropWhile_cons, if_pos (decide_eq_true hcd), h2]
    · simp [List.count_cons, h3, hcd]

theorem head_not_sign (cs : List Char) (hne : cs.isEmpty = false)
    (hall : cs.all Char.isDigit = true) (a : Char) (ha : a.isDigit = false) :
    ¬ cs.head? = some a := by
  cases cs with
  | nil => simp at hne
  | cons c t =>
    simp only [List.all_cons, Bool.and_eq_true] at hall
    simp only [List.head?_cons, Option.some.injEq]
    intro hEq
    rw [hEq] at hall
    rw [hall.1] at ha
    exact absurd ha (by decide)

/-- On an all-digit nonempty string, the Python float model returns the
digits' numeric value. -/
theorem pyFloat_digits (s : String) (h : isPyNumeric s = true) :
    pyFloat s = some (digitsVal s.toList) := by
  rw [isPyNumeric, Bool.and_eq_true, Bool.not_eq_true'] at h
  obtain ⟨hne, hall⟩ := h
  obtain ⟨h1, h2, h3⟩ := all_digit_facts s.toList hall
  have hminus : ¬ s.toList.head? = some '-' :=
    head_not_sign s.toList hne hall '-' (by decide)
  have hplus : ¬ s.toList.head? = some '+' :=
    head_not_sign s.toList hne hall '+' (by decide)
  have hcond : (s.toList.all (fun c => c.isDigit || c == '.') &&
      s.toList.count '.' ≤ 1 && s.toList.any Char.isDigit) = true := by
    simp only [Bool.and_eq_true, decide_eq_true_eq]
    refine ⟨⟨?_, ?_⟩, ?_⟩
    · rw [List.all_eq_true] at hall ⊢
      intro c hcmem
      rw [Bool.or_eq_true]
      exact Or.inl (hall c hcmem)
    · rw [h3]
      exact Nat.zero_le 1
    · cases hcs : s.toList with
      | nil => rw [hcs] at hne; simp at hne
      | cons c t =>
        rw [hcs] at hall
        simp only [List.all_cons, Bool.and_eq_true] at hall
        rw [List.any_cons, hall.1, Bool.true_or]
  rw [pyFloat]
  simp only [if_neg hminus, if_neg (by rw [not_or]; exact ⟨hminus, hplus⟩),
    if_pos hcond, h1, h2, List.drop_nil]
  have hz : digitsVal [] = 0 := rfl
  rw [hz]
  norm_num

theorem canvasHeightOf_digits (s : String) (h : isPyNumeric s = true) :
    canvasHeightOf (some s) = some (digitsVal s.toList) := by
  rw [canvasHeightOf, if_pos h, pyFloat_digits s h]

theorem canvasHeightOf_not_numeric (s : String) (h : isPyNumeric s = false) :
    canvasHeightOf (some s) = pyFloat (s.dropRight 2) := by
  rw [canvasHeightOf, if_neg (by rw [h]; exact Bool.false_ne_true)]

/-- C1: for every bed width w and height h, the per-corner
machine-coordinate labels for the four document corners, in order
(top-left, bottom-left, top-right, bottom-right) — which is the order of
the svg corner list (0,0), (0,h), (w,0), (w,h) in the host's
top-left-down document space — are exactly the claimed table for each of
the three origin modes; in particular, in bottom-left mode the bottom-left
document corner (0,h) is labelled (0,0) and the top-right document corner
(w,0) is labelled (w,h). -/
theorem claim_C1_corner_labels (w h : ℚ) :
    referencePointsGcode "bottom-left" w h =
      some [(0, h), (0, 0), (w, h), (w, 0)] ∧
    referencePointsGcode "top-left" w h =
      some [(0, 0), (0, h), (w, 0), (w, h)] ∧
    referencePointsGcode "center" w h =
      some [(-w / 2, h / 2), (-w / 2, -h / 2), (w / 2, h / 2),
        (w / 2, -h / 2)] ∧
    (∃ labels, referencePointsGcode "bottom-left" w h = some labels ∧
      (referencePointsSvg w h).zip labels =
        [((0, 0), (0, h)), ((0, h), (0, 0)), ((w, 0), (w, h)),
         ((w, h), (w, 0))]) :=
  ⟨rfl, rfl, rfl, [(0, h), (0, 0), (w, h), (w, 0)], rfl, rfl⟩

/-- C2: the forward chain built by effect() is translation by the offsets,
then the uniform scale, then — exactly for origin mode "center" among the
three modes — an extra translation by (-w/2, h/2); applied left-to-right
it maps (x, y) to (s(x+dx), s(y+dy)) for top-left and bottom-left and to
(s(x+dx) - w/2, s(y+dy) + h/2) for center; consequently with zero offsets
and unit scale the center chain maps (w/2, 0) to (0, h/2). -/
theorem claim_C2_forward_chain (dx dy s w h x y : ℚ) :
    forwardChain "top-left" dx dy s w h =
      [.translate dx dy, .scale s s] ∧
    forwardChain "bottom-left" dx dy s w h =
      [.translate dx dy, .scale s s] ∧
    forwardChain "center" dx dy s w h =
      [.translate dx dy, .scale s s, .translate (-w / 2) (h / 2)] ∧
    applyChain (forwardChain "top-left" dx dy s w h) (x, y) =
      (s * (x + dx), s * (y + dy)) ∧
    applyChain (forwardChain "bottom-left" dx dy s w h) (x, y) =
      (s * (x + dx), s * (y + dy)) ∧
    applyChain (forwardChain "center" dx dy s w h) (x, y) =
      (s * (x + dx) + -w / 2, s * (y + dy) + h / 2) ∧
    applyChain (forwardChain "center" 0 0 1 w h) (w / 2, 0) = (0, h / 2) := by
  refine ⟨rfl, rfl, rfl, ?_, ?_, ?_, ?_⟩ <;>
    simp only [forwardChain, applyChain, beq_self_eq_true, List.cons_append,
      List.nil_append, List.foldl_cons, List.foldl_nil, applyOp,
      Prod.mk.injEq, List.append_nil, ite_true, ite_false] <;>
    constructor <;> ring

/-- C3: for every curve rendered by the debug trace renderer, the overlay
transform it is mapped through is changeOrigin, which is the identity
(empty chain) for top-left, the vertical flip Scale(1,-1) followed by
Translate(0, -canvas_height) otherwise, with an additional
Translate(w/2, h/2) for center; each rendered path's vertex list is the
curve's approximation mapped through exactly that chain. -/
theorem claim_C3_overlay_transform (ap : Curve → List (ℚ × ℚ))
    (root : XElem) (origin : String) (w h ch : ℚ) (curves : List Curve)
    (hch : canvasHeightOf (getStrAttr root "height") = some ch) :
    changeOrigin "top-left" ch w h = [] ∧
    changeOrigin "bottom-left" ch w h =
      [.scale 1 (-1), .translate 0 (-ch)] ∧
    changeOrigin "center" ch w h =
      [.scale 1 (-1), .translate 0 (-ch), .translate (w / 2) (h / 2)] ∧
    drawDebugTraces ap root origin w h curves =
      some (appendChild root (XElem.mk "g"
        [("id", .str "debug_traces"), ("groupmode", .str "layer"),
         ("label", .str "debug laser traces")] none
        (arrowDefs :: curves.map (fun c => XElem.mk "path"
          [("stroke", .str "red"), ("stroke-width", .num (1 / 2)),
           ("d", .pts ((ap c).map
             (applyChain (changeOrigin origin ch w h))))]
          none [])))) := by
  refine ⟨rfl, rfl, rfl, ?_⟩
  rw [drawDebugTraces, hch]
  rfl

/-- Witness for C3 at a concrete document with height "200" and an empty
curve list. -/
theorem claim_C3_overlay_transform_witness :
    changeOrigin "top-left" chA 100 200 = [] ∧
    drawDebugTraces apId docA "bottom-left" 100 200 [] =
      some (appendChild docA (XElem.mk "g"
        [("id", .str "debug_traces"), ("groupmode", .str "layer"),
         ("label", .str "debug laser traces")] none [arrowDefs])) := by
  obtain ⟨h1, _, _, h4⟩ :=
    claim_C3_overlay_transform apId docA "bottom-left" 100 200 chA [] rfl
  exact ⟨h1, by simpa using h4⟩

/-- C7: the reference marker renderer computes the horizontal crosshair
arm direction as -1 if x>0 and +1 otherwise and the vertical arm
direction as -1 if y>0 and +1 otherwise; those directions set the line
endpoints of each rendered corner marker; in particular for corner (0,h)
with h>0 the vertical direction is -1 and the horizontal +1. -/
theorem claim_C7_crosshair_directions (unit : String) (x y h lx ly : ℚ) :
    (x > 0 → xDirection x = -1) ∧ (¬ x > 0 → xDirection x = 1) ∧
    (y > 0 → yDirection y = -1) ∧ (¬ y > 0 → yDirection y = 1) ∧
    (∃ horiz vert tb, referencePoint unit x y lx ly =
        XElem.mk "g" [] none [XElem.mk "g" [] none [horiz, vert], tb] ∧
      horiz.getAttr "x2" = some (.num (x + xDirection x * 7)) ∧
      vert.getAttr "y2" = some (.num (y + yDirection y * 7))) ∧
    (h > 0 → yDirection h = -1 ∧ xDirection 0 = 1) :=
  ⟨fun hx => by rw [xDirection, if_pos hx],
   fun hx => by rw [xDirection, if_neg hx],
   fun hy => by rw [yDirection, if_pos hy],
   fun hy => by rw [yDirection, if_neg hy],
   ⟨_, _, _, rfl, rfl, rfl⟩,
   fun hh => ⟨by rw [yDirection, if_pos hh],
     by rw [xDirection, if_neg (by norm_num)]⟩⟩

/-- Witness for C7 at the document corner (0, 200). -/
theorem claim_C7_crosshair_directions_witness :
    yDirection 200 = -1 ∧ xDirection 0 = 1 :=
  (claim_C7_crosshair_directions "mm" 0 200 200 0 0).2.2.2.2.2
    (by norm_num)

/-- C8: the corner label text is vertically nudged above the point when
y>0 and below it when y≤0, reading above/below in the spec's
machine-style vertical sense — the same convention under which its
companion sentence calls arm direction -1 at corner (0,h) "downward" —
so "above" is the direction of increasing y attribute.  Concretely the
text y attribute is y+9 when y>0 and y-6 when y≤0, always on the
opposite side of the point from the vertical crosshair arm. -/
theorem claim_C8_text_nudge (unit : String) (x y lx ly : ℚ) :
    (y > 0 → textY y = y + 9) ∧
    (y ≤ 0 → textY y = y - 6) ∧
    (textY y - y) * yDirection y < 0 ∧
    (∃ plus tb, referencePoint unit x y lx ly =
        XElem.mk "g" [] none [plus, tb] ∧
      tb.getAttr "y" = some (.num (textY y))) := by
  refine ⟨fun hy => ?_, fun hy => ?_, ?_, ⟨_, _, rfl, rfl⟩⟩
  · rw [textY, if_neg (not_le.2 hy), if_pos hy]
    ring
  · rw [textY, if_pos hy, if_neg (not_lt.2 hy)]
    ring
  · by_cases hy : y > 0
    · rw [textY, yDirection, if_neg (not_le.2 hy), if_pos hy, if_pos hy]
      ring_nf
      norm_num
    · rw [textY, yDirection, if_pos (not_lt.1 hy), if_neg hy, if_neg hy]
      ring_nf
      norm_num

/-- Witness for C8 at corners with y = 200 and y = 0. -/
theorem claim_C8_text_nudge_witness :
    textY 200 = 200 + 9 ∧ textY 0 = 0 - 6 :=
  ⟨(claim_C8_text_nudge "mm" 0 200 0 0).1 (by norm_num),
   (claim_C8_text_nudge "mm" 0 0 0 0).2.1 (by norm_num)⟩

/-- C9: with an empty parsed curve list the debug trace renderer still
creates and appends the debug_traces group to the document without
error, and that group has zero path child elements (its only child is
the arrow defs element). -/
theorem claim_C9_empty_curves (ap : Curve → List (ℚ × ℚ)) (root : XElem)
    (origin : String) (w h ch : ℚ)
    (hch : canvasHeightOf (getStrAttr root "height") = some ch) :
    drawDebugTraces ap root origin w h [] =
      some (root.withChildren (root.children ++ [XElem.mk "g"
        [("id", .str "debug_traces"), ("groupmode", .str "layer"),
         ("label", .str "debug laser traces")] none [arrowDefs]])) ∧
    List.countP (fun e => e.tag == "path") [arrowDefs] = 0 ∧
    countById (root.children ++ [XElem.mk "g"
        [("id", .str "debug_traces"), ("groupmode", .str "layer"),
         ("label", .str "debug laser traces")] none [arrowDefs]])
      "debug_traces" = countById root.children "debug_traces" + 1 := by
  refine ⟨?_, rfl, ?_⟩
  · rw [drawDebugTraces, hch]
    rfl
  · rw [countById_append]
    simp [countById, List.countP_cons, matchesId_cons_self]

/-- Witness for C9 at a concrete document with height "200". -/
theorem claim_C9_empty_curves_witness :
    drawDebugTraces apId docA "center" 100 200 [] =
      some (docA.withChildren (docA.children ++ [XElem.mk "g"
        [("id", AVal.str "debug_traces"), ("groupmode", AVal.str "layer"),
         ("label", AVal.str "debug laser traces")] none [arrowDefs]])) ∧
    List.countP (fun e => e.tag == "path") [arrowDefs] = 0 :=
  ⟨(claim_C9_empty_curves apId docA "center" 100 200 chA rfl).1,
   (claim_C9_empty_curves apId docA "center" 100 200 chA rfl).2.1⟩

/-- C10: the canvas height used for the overlay flip is float(s) when
the root height attribute string s consists solely of digit characters
and float(s with its last two characters removed) otherwise; "297.5" has
a dot so it is not isnumeric and parses as float("297") = 297; when the
remaining prefix is not a valid number the renderer errors. -/
theorem claim_C10_height_parse (s : String) :
    (isPyNumeric s = true →
      canvasHeightOf (some s) = some (digitsVal s.toList)) ∧
    (isPyNumeric s = false →
      canvasHeightOf (some s) = pyFloat (s.dropRight 2)) ∧
    isPyNumeric "297.5" = false ∧
    canvasHeightOf (some "297.5") = some 297 ∧
    canvasHeightOf (some "29x.5") = none ∧
    (∀ ap root origin w h curves,
      getStrAttr root "height" = some "29x.5" →
      drawDebugTraces ap root origin w h curves = none) := by
  refine ⟨canvasHeightOf_digits s, canvasHeightOf_not_numeric s, rfl,
    ?_, rfl, ?_⟩
  · rw [canvasHeightOf_not_numeric "297.5" rfl,
      show "297.5".dropRight 2 = "297" from by decide,
      pyFloat_digits "297" rfl,
      show digitsVal "297".toList = 297 from by decide]
    norm_num
  · intro ap root origin w h curves hroot
    rw [drawDebugTraces, hroot]
    rfl

/-- Witness for C10 on an all-digit height and a suffixed height. -/
theorem claim_C10_height_parse_witness :
    canvasHeightOf (some "042") = some 42 ∧
    canvasHeightOf (some "100mm") = pyFloat "100" := by
  constructor
  · rw [(claim_C10_height_parse "042").1 rfl,
      show digitsVal "042".toList = 42 from by decide]
    norm_num
  · rw [(claim_C10_height_parse "100mm").2.1 rfl,
      show "100mm".dropRight 2 = "100" from by decide]

/-! Unfolding lemmas for the generation pass. -/

theorem effect_draw_debug (pr : XElem → Bool → List AffineOp → List Curve)
    (ap : Curve → List (ℚ × ℚ)) (o : Options) (doc : XElem)
    (hdd : o.draw_debug = true) :
    effect pr ap o doc =
      (drawDebugTraces ap (clearDebug doc) o.machine_origin o.bed_width
        o.bed_height
        (pr (clearDebug doc) (transformOriginFlag o.machine_origin)
          (forwardChain o.machine_origin o.horizontal_offset
            o.vertical_offset o.scaling_factor o.bed_width
            o.bed_height))).bind
      (fun r2 => drawUnitReference r2 o.machine_origin o.unit o.bed_width
        o.bed_height) := by
  rw [effect, hdd]
  exact if_pos rfl

theorem effect_no_debug (pr : XElem → Bool → List AffineOp → List Curve)
    (ap : Curve → List (ℚ × ℚ)) (o : Options) (doc : XElem)
    (hdf : o.draw_debug = false) :
    effect pr ap o doc = some (clearDebug doc) := by
  rw [effect, hdf]
  exact if_neg Bool.false_ne_true

theorem drawDebugTraces_some {ap : Curve → List (ℚ × ℚ)} {root : XElem}
    {origin : String} {w h ch : ℚ} {curves : List Curve}
    (hch : canvasHeightOf (getStrAttr root "height") = some ch) :
    drawDebugTraces ap root origin w h curves =
      some (appendChild root (tracesGroup ap origin ch w h curves)) := by
  rw [drawDebugTraces, hch]

theorem drawUnitReference_some {root : XElem} {origin u : String}
    {w h : ℚ} {labels : List (ℚ × ℚ)}
    (hl : referencePointsGcode origin w h = some labels) :
    drawUnitReference root origin u w h =
      some (appendChild root (refsGroup u labels w h)) := by
  rw [drawUnitReference, hl]

theorem drawUnitReference_none {root : XElem} {origin u : String}
    {w h : ℚ} (hl : referencePointsGcode origin w h = none) :
    drawUnitReference root origin u w h = none := by
  rw [drawUnitReference, hl]

theorem referencePointsGcode_unrecognized (origin : String)
    (hn1 : origin ≠ "top-left") (hn2 : origin ≠ "bottom-left")
    (hn3 : origin ≠ "center") (w h : ℚ) :
    referencePointsGcode origin w h = none := by
  rw [referencePointsGcode,
    if_neg (by simp only [beq_iff_eq]; exact hn2),
    if_neg (by simp only [beq_iff_eq]; exact hn1),
    if_neg (by simp only [beq_iff_eq]; exact hn3)]

theorem forwardChain_not_center (origin : String) (h3 : origin ≠ "center")
    (dx dy s w h : ℚ) :
    forwardChain origin dx dy s w h = [.translate dx dy, .scale s s] := by
  rw [forwardChain, if_neg (by simp only [beq_iff_eq]; exact h3),
    List.append_nil]

theorem changeOrigin_flip_only (origin : String) (h1 : origin ≠ "top-left")
    (h3 : origin ≠ "center") (ch w h : ℚ) :
    changeOrigin origin ch w h = [.scale 1 (-1), .translate 0 (-ch)] := by
  rw [changeOrigin, if_pos (by simp only [bne_iff_ne, ne_eq]; exact h1),
    if_neg (by simp only [beq_iff_eq]; exact h3), List.append_nil]

/-- Clearing after appending the two overlay groups to an overlay-free
document restores it; the appended document holds exactly one group of
each kind. -/
theorem clearDebug_append_overlays (d tg rg : XElem)
    (hz1 : countById d.children "debug_traces" = 0)
    (hz2 : countById d.children "debug_references" = 0)
    (ht : matchesId "debug_traces" tg = true)
    (ht2 : matchesId "debug_references" tg = false)
    (hr : matchesId "debug_references" rg = true)
    (hr2 : matchesId "debug_traces" rg = false) :
    clearDebug (appendChild (appendChild d tg) rg) = d ∧
    countById (appendChild (appendChild d tg) rg).children
      "debug_traces" = 1 ∧
    countById (appendChild (appendChild d tg) rg).children
      "debug_references" = 1 := by
  have hch : (appendChild (appendChild d tg) rg).children =
      d.children ++ [tg, rg] := by
    rw [appendChild, appendChild, XElem.children_withChildren,
      XElem.children_withChildren, List.append_assoc]
    rfl
  refine ⟨?_, ?_, ?_⟩
  · rw [clearDebug, hch, removeFirstById_append_of_countZero _ _ _ hz1,
      show removeFirstById [tg, rg] "debug_traces" = [rg] from by
        rw [removeFirstById, if_pos ht],
      removeFirstById_append_of_countZero _ _ _ hz2,
      show removeFirstById [rg] "debug_references" = [] from by
        rw [removeFirstById, if_pos hr],
      List.append_nil, appendChild, appendChild,
      XElem.withChildren_withChildren, XElem.withChildren_withChildren,
      XElem.withChildren_self]
  · rw [hch, countById_append, hz1]
    simp [countById, List.countP_cons, ht, hr2]
  · rw [hch, countById_append, hz2]
    simp [countById, List.countP_cons, hr, ht2]

/-- C4: the code does not abort a generation pass on an unrecognized
origin-mode value when debug drawing is disabled: this counterexample
pass with origin "upper-right" completes without error and silently uses
bottom-left mode's forward chain and transform-origin flag. -/
theorem claim_C4_cex :
    ("upper-right" ∉ (["top-left", "bottom-left", "center"] :
      List String)) ∧
    effect prEmpty apId optsBogus docA = some (clearDebug docA) ∧
    forwardChain "upper-right" 3 4 2 100 200 =
      forwardChain "bottom-left" 3 4 2 100 200 ∧
    transformOriginFlag "upper-right" = transformOriginFlag "bottom-left" :=
  ⟨by decide, rfl, rfl, rfl⟩

/-- C4 (amended): an unrecognized origin-mode value is rejected with an
error only by the reference-marker renderer's label lookup, so a
generation pass aborts only when debug drawing is enabled; with debug
drawing disabled the pass completes without error, and in both cases the
forward chain, the transform-origin flag, and the trace-overlay flip
silently coincide with bottom-left mode's. -/
theorem claim_C4_unrecognized_origin
    (pr : XElem → Bool → List AffineOp → List Curve)
    (ap : Curve → List (ℚ × ℚ)) (o : Options) (doc : XElem)
    (hn1 : o.machine_origin ≠ "top-left")
    (hn2 : o.machine_origin ≠ "bottom-left")
    (hn3 : o.machine_origin ≠ "center") :
    (o.draw_debug = true → effect pr ap o doc = none) ∧
    (o.draw_debug = false → effect pr ap o doc = some (clearDebug doc)) ∧
    (∀ root u w h, drawUnitReference root o.machine_origin u w h = none) ∧
    (∀ dx dy s w h, forwardChain o.machine_origin dx dy s w h =
      forwardChain "bottom-left" dx dy s w h) ∧
    transformOriginFlag o.machine_origin =
      transformOriginFlag "bottom-left" ∧
    (∀ ch w h, changeOrigin o.machine_origin ch w h =
      changeOrigin "bottom-left" ch w h) := by
  have hdur : ∀ (root : XElem) (u : String) (w h : ℚ),
      drawUnitReference root o.machine_origin u w h = none := fun root u w h =>
    drawUnitReference_none (referencePointsGcode_unrecognized _ hn1 hn2 hn3 w h)
  refine ⟨?_, effect_no_debug pr ap o doc, hdur, ?_, ?_, ?_⟩
  · intro hdd
    rw [effect_draw_debug pr ap o doc hdd]
    cases drawDebugTraces ap (clearDebug doc) o.machine_origin o.bed_width
        o.bed_height
        (pr (clearDebug doc) (transformOriginFlag o.machine_origin)
          (forwardChain o.machine_origin o.horizontal_offset
            o.vertical_offset o.scaling_factor o.bed_width
            o.bed_height)) with
    | none => rfl
    | some r2 => rw [Option.some_bind]; exact hdur r2 o.unit _ _
  · intro dx dy s w h
    rw [forwardChain_not_center _ hn3, forwardChain_not_center _ (by decide)]
  · rw [transformOriginFlag, transformOriginFlag,
      show ("bottom-left" != "top-left") = true from by decide]
    simp only [bne_iff_ne, ne_eq]
    exact hn1
  · intro ch w h
    rw [changeOrigin_flip_only _ hn1 hn3,
      changeOrigin_flip_only _ (by decide) (by decide)]

/-- Witness for C4 (amended) with origin "upper-right": the pass aborts
when debug drawing is on and completes when it is off. -/
theorem claim_C4_unrecognized_origin_witness :
    effect prEmpty apId optsBogusDebug docA = none ∧
    effect prEmpty apId optsBogus docA = some (clearDebug docA) :=
  ⟨(claim_C4_unrecognized_origin prEmpty apId optsBogusDebug docA
      (by decide) (by decide) (by decide)).1 rfl,
   (claim_C4_unrecognized_origin prEmpty apId optsBogus docA
      (by decide) (by decide) (by decide)).2.1 rfl⟩

/-- C5: running a full generation pass twice in succession with identical
inputs — with debug drawing enabled, on a document that does not already
carry duplicate overlay groups — yields a document with exactly one
debug_traces group and exactly one debug_references group, and the
document after the second pass equals the document after the first (in
particular the overlay contents are equal). -/
theorem claim_C5_regeneration
    (pr : XElem → Bool → List AffineOp → List Curve)
    (ap : Curve → List (ℚ × ℚ)) (o : Options) (doc doc1 doc2 : XElem)
    (hdd : o.draw_debug = true)
    (h1 : countById doc.children "debug_traces" ≤ 1)
    (h2 : countById doc.children "debug_references" ≤ 1)
    (hp1 : effect pr ap o doc = some doc1)
    (hp2 : effect pr ap o doc1 = some doc2) :
    countById doc2.children "debug_traces" = 1 ∧
    countById doc2.children "debug_references" = 1 ∧
    doc2 = doc1 := by
  obtain ⟨hz1, hz2⟩ := countById_clearDebug doc h1 h2
  rw [effect_draw_debug pr ap o doc hdd] at hp1
  cases hch : canvasHeightOf (getStrAttr (clearDebug doc) "height") with
  | none =>
    rw [drawDebugTraces, hch] at hp1
    exact absurd hp1 (by simp)
  | some ch =>
    rw [drawDebugTraces_some hch, Option.some_bind] at hp1
    cases hlb : referencePointsGcode o.machine_origin o.bed_width
        o.bed_height with
    | none =>
      rw [drawUnitReference_none hlb] at hp1
      exact absurd hp1 (by simp)
    | some labels =>
      rw [drawUnitReference_some hlb] at hp1
      have hdoc1 := (Option.some.inj hp1).symm
      obtain ⟨hclr, hc1, hc2⟩ :=
        clearDebug_append_overlays (clearDebug doc)
          (tracesGroup ap o.machine_origin ch o.bed_width o.bed_height
            (pr (clearDebug doc) (transformOriginFlag o.machine_origin)
              (forwardChain o.machine_origin o.horizontal_offset
                o.vertical_offset o.scaling_factor o.bed_width
                o.bed_height)))
          (refsGroup o.unit labels o.bed_width o.bed_height)
          hz1 hz2 (matchesId_cons_self _ _ _ _)
          (matchesId_cons_ne _ _ (by decide) _ _ _)
          (matchesId_cons_self _ _ _ _)
          (matchesId_cons_ne _ _ (by decide) _ _ _)
      have hcd1 : clearDebug doc1 = clearDebug doc := by
        rw [hdoc1]
        exact hclr
      have hp2' : effect pr ap o doc1 = some doc1 := by
        rw [effect_draw_debug pr ap o doc1 hdd, hcd1,
          drawDebugTraces_some hch, Option.some_bind,
          drawUnitReference_some hlb, hdoc1]
      rw [hp2'] at hp2
      have hd21 : doc2 = doc1 := (Option.some.inj hp2).symm
      refine ⟨?_, ?_, hd21⟩
      · rw [hd21, hdoc1]
        exact hc1
      · rw [hd21, hdoc1]
        exact hc2

/-- Witness for C5: two passes over a concrete document with height
"200", bottom-left origin, no curves. -/
theorem claim_C5_regeneration_witness :
    countById docA2.children "debug_traces" = 1 ∧
    countById docA2.children "debug_references" = 1 ∧
    docA2 = docA1 :=
  claim_C5_regeneration prEmpty apId optsBL docA docA1 docA2 rfl
    (by decide) (by decide) rfl rfl

/-- C6: the claim fails on the code for an arbitrary document tree: on a
document holding two trace-overlay groups, the second clear() removes a
further node, so two invocations do not leave the document unchanged
after the first. -/
theorem claim_C6_cex :
    clearDebug (clearDebug dupDoc) ≠ clearDebug dupDoc := by
  intro hEq
  have hlen : (clearDebug (clearDebug dupDoc)).children.length =
      (clearDebug dupDoc).children.length := by rw [hEq]
  rw [show (clearDebug (clearDebug dupDoc)).children = [] from rfl,
    show (clearDebug dupDoc).children = [traceStub] from rfl] at hlen
  exact absurd hlen (by decide)

/-- C6 (amended): on documents holding at most one node per overlay
identifier — the invariant the overlay lifecycle itself maintains —
invoking clear() twice leaves the document unchanged after the first
call, and clear() is a no-op (not an error) on a document containing
neither overlay node. -/
theorem claim_C6_clear_idempotent (d : XElem)
    (h1 : countById d.children "debug_traces" ≤ 1)
    (h2 : countById d.children "debug_references" ≤ 1) :
    clearDebug (clearDebug d) = clearDebug d ∧
    (countById d.children "debug_traces" = 0 →
      countById d.children "debug_references" = 0 →
      clearDebug d = d) := by
  obtain ⟨hz1, hz2⟩ := countById_clearDebug d h1 h2
  exact ⟨clearDebug_of_countZero _ hz1 hz2,
    fun hz1a hz2a => clearDebug_of_countZero _ hz1a hz2a⟩

/-- Witness for C6 (amended) on a concrete overlay-free document. -/
theorem claim_C6_clear_idempotent_witness :
    clearDebug (clearDebug docA) = clearDebug docA ∧
    clearDebug docA = docA :=
  ⟨(claim_C6_clear_idempotent docA (by decide) (by decide)).1,
   (claim_C6_clear_idempotent docA (by decide) (by decide)).2
     (by decide) (by decide)⟩

end LaserTool
